import Mathlib

/-!
Verification development for the news scraping and summarization pipeline
(backend/news_scraper.py and the news endpoints of backend/server.py).

The Python code is shallowly embedded: strings are Lean `String`s (with the
character-level helpers below mirroring the Python string methods used by the
code), parsed HTML documents are finite node trees standing for the
BeautifulSoup soup, and the effectful parts (HTTP fetching, the external
text-generation agent) are modelled by explicit outcome values passed in as
oracles, so that every embedded function is a total, executable Lean function.
-/

namespace NewsBytes

/-! ## Python string primitives -/

/-- Python `str.strip()` on a character list: drop whitespace from both ends. -/
def stripChars (l : List Char) : List Char :=
  ((l.dropWhile Char.isWhitespace).reverse.dropWhile Char.isWhitespace).reverse

/-- Python `str.strip()`. -/
def pyStrip (s : String) : String :=
  String.mk (stripChars s.data)

/-- Does the character list begin with the given pattern?  (Used to embed
Python substring tests and `str.replace`.) -/
def startsWithL : List Char → List Char → Bool
  | _, [] => true
  | [], _ :: _ => false
  | a :: as, b :: bs => a = b && startsWithL as bs

/-- Python `sub in s` on character lists: does `sub` occur anywhere in `l`? -/
def containsL : List Char → List Char → Bool
  | [], sub => sub.isEmpty
  | a :: as, sub => startsWithL (a :: as) sub || containsL as sub

/-- Python `str.startswith(pat)`. -/
def pyStartsWith (s pat : String) : Bool :=
  startsWithL s.data pat.data

/-- Python `str.replace(old, new)` on character lists: replace every
(left-to-right, non-overlapping) occurrence of `old` by `new`.  The `fuel`
argument (always instantiated with the length of the scanned list, which
only shrinks) makes the recursion structural. -/
def replaceFuel (fuel : Nat) (l old new : List Char) : List Char :=
  match fuel, l with
  | 0, _ => l
  | _, [] => []
  | fuel + 1, c :: cs =>
    if old ≠ [] ∧ startsWithL l old then
      new ++ replaceFuel fuel (l.drop old.length) old new
    else
      c :: replaceFuel fuel cs old new

/-- Python `str.replace(old, new)` on character lists. -/
def replaceL (l old new : List Char) : List Char :=
  replaceFuel l.length l old new

/-- Split a character list at every occurrence of the separator, keeping empty
segments, as Python `str.split(sep)` does for an explicit separator. -/
def splitSepL (sep : Char) : List Char → List (List Char)
  | [] => [[]]
  | c :: cs =>
    let r := splitSepL sep cs
    if c = sep then [] :: r
    else
      match r with
      | [] => [[c]]
      | h :: t => (c :: h) :: t

/-- Python `str.split()` with no argument: split on whitespace runs, dropping
empty words.  `acc` holds the characters of the current word, reversed. -/
def wordsAux : List Char → List Char → List String
  | [], acc => if acc.isEmpty then [] else [String.mk acc.reverse]
  | c :: cs, acc =>
    if c.isWhitespace then
      if acc.isEmpty then wordsAux cs []
      else String.mk acc.reverse :: wordsAux cs []
    else wordsAux cs (c :: acc)

/-- Python `s.split()` (whitespace splitting, empties dropped). -/
def pyWords (s : String) : List String :=
  wordsAux s.data []

/-- Python `" ".join(l)`. -/
def pyJoinSpace : List String → String
  | [] => ""
  | [x] => x
  | x :: y :: t => x ++ " " ++ pyJoinSpace (y :: t)

/-- Python `str.capitalize()`: first character uppercased, the rest
lowercased. -/
def pyCapitalize (s : String) : String :=
  match s.data with
  | [] => ""
  | c :: cs => String.mk (c.toUpper :: cs.map Char.toLower)

/-- Python `str.split("\n")`, used by the summarizer response parser. -/
def splitLines (s : String) : List String :=
  (splitSepL '\n' s.data).map String.mk

/-- Find the first occurrence of the separator character: returns the
characters before it and the characters after it, if it occurs. -/
def splitOnceL (sep : Char) : List Char → Option (List Char × List Char)
  | [] => none
  | c :: cs =>
    if c = sep then some ([], cs)
    else (splitOnceL sep cs).map (fun p => (c :: p.1, p.2))

/-! ## HTML document model

A parsed HTML document (the BeautifulSoup soup) is a forest of nodes; an
element node has a tag name, an attribute list and children, a text node
holds string data.  The selector engine below implements exactly the
CSS-selector/`find` forms the scraper uses: a bare tag name, `tag.class`,
`.class`, and `[attr='value']`, all returning the first match in document
(preorder) order. -/

inductive Node where
  | elem (tag : String) (attrs : List (String × String)) (children : List Node)
  | text (s : String)
deriving Repr

/-- An element, decomposed: tag name, attributes, children. -/
abbrev Tag := String × List (String × String) × List Node

/-- Look up an attribute value (first binding wins). -/
def attrOf (attrs : List (String × String)) (key : String) : Option String :=
  (attrs.find? (fun p => p.1 == key)).map (fun p => p.2)

/-- BeautifulSoup treats `class` as a multi-valued attribute split on
whitespace; `tag.cls` selectors test membership in that list. -/
def hasClass (attrs : List (String × String)) (cls : String) : Bool :=
  match attrOf attrs "class" with
  | some v => (pyWords v).contains cls
  | none => false

mutual

/-- First element in this node (itself or a descendant), in document
(preorder) order, whose tag name and attributes satisfy the predicate. -/
def findFirstN (p : String → List (String × String) → Bool) :
    Node → Option Tag
  | .text _ => none
  | .elem t a c =>
    if p t a then some (t, a, c) else findFirstL p c

/-- First element of the forest, in document (preorder) order, whose tag
name and attributes satisfy the predicate.  Embeds
`soup.select_one`/`soup.find`. -/
def findFirstL (p : String → List (String × String) → Bool) :
    List Node → Option Tag
  | [] => none
  | n :: rest =>
    match findFirstN p n with
    | some r => some r
    | none => findFirstL p rest

end

mutual

/-- All matching elements in this node (itself or a descendant), in
document (preorder) order. -/
def findAllN (p : String → List (String × String) → Bool) :
    Node → List Tag
  | .text _ => []
  | .elem t a c =>
    (if p t a then [(t, a, c)] else []) ++ findAllL p c

/-- All elements of the forest, in document (preorder) order, satisfying the
predicate.  Embeds `find_all`. -/
def findAllL (p : String → List (String × String) → Bool) :
    List Node → List Tag
  | [] => []
  | n :: rest => findAllN p n ++ findAllL p rest

end

mutual

/-- Concatenated text of all text nodes under this node. -/
def getTextN : Node → String
  | .text s => s
  | .elem _ _ c => getTextL c

/-- Concatenated text of all text nodes of the forest, in document order.
Embeds `get_text()` (default empty separator). -/
def getTextL : List Node → String
  | [] => ""
  | n :: rest => getTextN n ++ getTextL rest

end

/-- The selector forms used by the scraper. -/
inductive Sel where
  | tag (t : String)
  | tagClass (t c : String)
  | cls (c : String)
  | attrEq (key value : String)
deriving Repr

/-- Whether an element with the given tag name and attributes matches a
selector. -/
def matchesSel (s : Sel) (tag : String) (attrs : List (String × String)) : Bool :=
  match s with
  | .tag t => tag == t
  | .tagClass t c => tag == t && hasClass attrs c
  | .cls c => hasClass attrs c
  | .attrEq k v => attrOf attrs k == some v

/-! ## urllib.parse.urlparse (scheme/netloc fragment)

The scraper only reads `parsed.scheme` and `parsed.netloc`, so we embed
exactly that fragment of `urlparse`: a leading `scheme:` is recognised when
the part before the first colon is non-empty, starts with a letter and
consists of scheme characters (it is lowercased, as in CPython); the netloc
is then the text after a leading `//`, up to the next `/`, `?` or `#`. -/

/-- CPython scheme characters: letters, digits, `+`, `-`, `.`. -/
def isSchemeChar (c : Char) : Bool :=
  c.isAlphanum || c = '+' || c = '-' || c = '.'

/-- A valid scheme part: non-empty, leading letter, scheme characters. -/
def validScheme : List Char → Bool
  | [] => false
  | c :: cs => c.isAlpha && (c :: cs).all isSchemeChar

/-- `urlparse(s)` restricted to the `(scheme, netloc)` components. -/
def urlparseSchemeNetloc (s : String) : String × String :=
  let cs := s.data
  let sr : List Char × List Char :=
    match splitOnceL ':' cs with
    | some (a, b) => if validScheme a then (a.map Char.toLower, b) else ([], cs)
    | none => ([], cs)
  match sr with
  | (schemeCs, '/' :: '/' :: r) =>
    (String.mk schemeCs,
     String.mk (r.takeWhile (fun c => !(c = '/' || c = '?' || c = '#'))))
  | (schemeCs, _) => (String.mk schemeCs, "")

/-! ## NewsScraper extraction helpers (news_scraper.py) -/

/-- The scraped article record (`NewsArticle` in news_scraper.py).  The
`published_at` field (wall-clock time of extraction) is not modelled: no
claim concerns it and it is nondeterministic. -/
structure NewsArticle where
  title : String
  content : String
  source_url : String
  source_name : String
  image_url : Option String
deriving Repr, DecidableEq

/-- The selector list of `_extract_title`:
`["h1", "h1.article-title", "h1.entry-title", "[property='og:title']"]`. -/
def titleSelectors : List Sel :=
  [.tag "h1", .tagClass "h1" "article-title", .tagClass "h1" "entry-title",
   .attrEq "property" "og:title"]

/-- Try selectors in order, returning the first selector match found in the
document (the `for selector in [...]` loop with `select_one`). -/
def findFirstSels (sels : List Sel) (doc : List Node) : Option Tag :=
  match sels with
  | [] => none
  | s :: rest =>
    match findFirstL (matchesSel s) doc with
    | some r => some r
    | none => findFirstSels rest doc

/-- `NewsScraper._extract_title`: for the first matching title selector,
return the `content` attribute if the element has one, else its text,
stripped; otherwise fall back to the `<title>` element text, stripped;
otherwise `None`.  (Note: the winning element is the first one that exists,
whether or not its text is empty.) -/
def extract_title (doc : List Node) : Option String :=
  match findFirstSels titleSelectors doc with
  | some (_, attrs, children) =>
    some (match attrOf attrs "content" with
          | some v => pyStrip v
          | none => pyStrip (getTextL children))
  | none =>
    match findFirstL (fun t _ => t == "title") doc with
    | some (_, _, children) => some (pyStrip (getTextL children))
    | none => none

/-- The container selector list of `_extract_content`:
`["article", ".article-content", ".post-content", ".entry-content", "main"]`. -/
def contentSelectors : List Sel :=
  [.tag "article", .cls "article-content", .cls "post-content",
   .cls "entry-content", .tag "main"]

/-- Is an element a paragraph? -/
def isP (t : String) (_ : List (String × String)) : Bool :=
  t == "p"

/-- `" ".join([p.get_text().strip() for p in paragraphs])`. -/
def joinParagraphs (ps : List Tag) : String :=
  pyJoinSpace (ps.map (fun tg => pyStrip (getTextL tg.2.2)))

/-- The container loop of `_extract_content`: for the first selector whose
container exists, collect its paragraphs; if there are any and their joined
text is longer than 100 characters, return it; otherwise keep trying the
remaining selectors. -/
def contentFromSels (sels : List Sel) (doc : List Node) : Option String :=
  match sels with
  | [] => none
  | s :: rest =>
    match findFirstL (matchesSel s) doc with
    | some (_, _, children) =>
      let ps := findAllL isP children
      if ps.isEmpty then contentFromSels rest doc
      else
        let content := joinParagraphs ps
        if 100 < content.length then some content
        else contentFromSels rest doc
    | none => contentFromSels rest doc

/-- `NewsScraper._extract_content`: the container loop, then the whole-page
paragraph fallback with the same 100-character threshold. -/
def extract_content (doc : List Node) : Option String :=
  match contentFromSels contentSelectors doc with
  | some c => some c
  | none =>
    let ps := findAllL isP doc
    if ps.isEmpty then none
    else
      let content := joinParagraphs ps
      if 100 < content.length then some content else none

/-- `NewsScraper._make_absolute_url`: pass through anything starting with
"http", otherwise glue the scheme and netloc of the base URL onto the path. -/
def make_absolute_url (url base_url : String) : String :=
  if pyStartsWith url "http" then url
  else
    let parsed := urlparseSchemeNetloc base_url
    parsed.1 ++ "://" ++ parsed.2 ++ url

/-- A `meta` element whose attribute `key` equals `value` and whose `content`
attribute is truthy (present and non-empty) — the shape tested by
`soup.find("meta", ...)` followed by `og_image.get("content")`. -/
def metaContent (doc : List Node) (key value : String) : Option String :=
  match findFirstL (fun t a => t == "meta" && attrOf a key == some value) doc with
  | some (_, attrs, _) =>
    match attrOf attrs "content" with
    | some v => if v.isEmpty then none else some v
    | none => none
  | none => none

/-- `NewsScraper._extract_image`: Open-Graph image, then Twitter-card image,
then the first `img` with a truthy `src` inside the first `article` element
(resolved against the base URL). -/
def extract_image (doc : List Node) (base_url : String) : Option String :=
  match metaContent doc "property" "og:image" with
  | some v => some v
  | none =>
    match metaContent doc "name" "twitter:image" with
    | some v => some v
    | none =>
      match findFirstL (fun t _ => t == "article") doc with
      | some (_, _, children) =>
        match findFirstL (fun t _ => t == "img") children with
        | some (_, attrs, _) =>
          match attrOf attrs "src" with
          | some src =>
            if src.isEmpty then none else some (make_absolute_url src base_url)
          | none => none
        | none => none
      | none => none

/-- `NewsScraper._get_source_name`: netloc of the URL, with every occurrence
of the substring "www." removed (Python `str.replace` replaces all
occurrences), then the first dot-separated label, capitalized. -/
def get_source_name (url : String) : String :=
  let netloc := (urlparseSchemeNetloc url).2
  let domain := replaceL netloc.data ("www.".data) []
  pyCapitalize (String.mk ((splitSepL '.' domain).headD []))

/-! ## NewsScraper.scrape_article (retry loop)

The network is an oracle `world : Nat → FetchOutcome` giving, for each
attempt index, either the HTTP status and parsed body returned by
`requests.get`, or an exception raised during the attempt (a
`requests.RequestException` from the GET itself, or any unexpected
exception while processing the response) — all three `except` arms of the
source treat the attempt identically.  Alongside the result we collect the
observable trace: each `requests.get` call and each backoff sleep. -/

inductive FetchOutcome where
  | status (code : Nat) (doc : List Node)
  | raises (msg : String)

inductive Ev where
  | sleep (units : Nat)
  | get
deriving Repr, DecidableEq

/-- Python truthiness test `if not x:` for an optional string: `None` and
the empty string are falsy. -/
def falsyOpt : Option String → Bool
  | none => true
  | some s => s.isEmpty

/-- One iteration of `for attempt in range(max_retries)` and everything
after it: sleeps `2 ** attempt` before any attempt but the first, issues the
GET, handles blocking status codes (401/403), `raise_for_status` on other
4xx/5xx, title/content extraction failures and raised exceptions — each of
which returns `None` on the last attempt and otherwise continues the loop —
and on success assembles the `NewsArticle`. -/
def scrapeGo (world : Nat → FetchOutcome) (url : String) (maxRetries : Nat)
    (attempt : Nat) : (remaining : Nat) → Option NewsArticle × List Ev
  | 0 => (none, [])
  | remaining + 1 =>
    let pre : List Ev := if 0 < attempt then [.sleep (2 ^ attempt)] else []
    let evs := pre ++ [.get]
    match world attempt with
    | .raises _ =>
      if attempt = maxRetries - 1 then (none, evs)
      else
        let next := scrapeGo world url maxRetries (attempt + 1) remaining
        (next.1, evs ++ next.2)
    | .status code doc =>
      if code = 401 ∨ code = 403 then
        if attempt = maxRetries - 1 then (none, evs)
        else
          let next := scrapeGo world url maxRetries (attempt + 1) remaining
          (next.1, evs ++ next.2)
      else if 400 ≤ code then
        -- response.raise_for_status() raises requests.HTTPError
        if attempt = maxRetries - 1 then (none, evs)
        else
          let next := scrapeGo world url maxRetries (attempt + 1) remaining
          (next.1, evs ++ next.2)
      else
        let titleOpt := extract_title doc
        if falsyOpt titleOpt then
          if attempt = maxRetries - 1 then (none, evs)
          else
            let next := scrapeGo world url maxRetries (attempt + 1) remaining
            (next.1, evs ++ next.2)
        else
          let contentOpt := extract_content doc
          if falsyOpt contentOpt then
            if attempt = maxRetries - 1 then (none, evs)
            else
              let next := scrapeGo world url maxRetries (attempt + 1) remaining
              (next.1, evs ++ next.2)
          else
            (some { title := titleOpt.getD ""
                    content := contentOpt.getD ""
                    source_url := url
                    source_name := get_source_name url
                    image_url := extract_image doc url }, evs)

/-- `NewsScraper.scrape_article(url, max_retries)` with the network oracle:
result and observable trace.  `range(max_retries)` runs the loop body
`maxRetries` times starting at attempt 0 (the `remaining` counter makes the
recursion structural). -/
def scrape_article (world : Nat → FetchOutcome) (url : String)
    (maxRetries : Nat) : Option NewsArticle × List Ev :=
  scrapeGo world url maxRetries 0 maxRetries

/-! ## NewsAISummarizer (news_scraper.py) -/

/-- The shape of `agent.execute(prompt)` results the summarizer reads. -/
structure AgentResult where
  success : Bool
  content : String
deriving Repr, DecidableEq

/-- Either the external agent call returns a result, or it (or the await)
raises. -/
inductive ExecOutcome where
  | ok (res : AgentResult)
  | raises (msg : String)

/-- `NewsAISummarizer.CATEGORIES`. -/
def CATEGORIES : List String := ["Technology", "Business", "Sports"]

/-- `NewsAISummarizer._extract_field`: split the response into lines, find
the first line containing the marker, remove every occurrence of the marker
from it and strip; empty string when no line matches. -/
def extract_field (text field : String) : String :=
  match (splitLines text).find? (fun l => containsL l.data field.data) with
  | some l => pyStrip (String.mk (replaceL l.data field.data []))
  | none => ""

/-- `NewsAISummarizer._fallback_summary`: first 60 whitespace-delimited
words joined with single spaces, plus "..." when the body has more than 60
words. -/
def fallback_summary (content : String) : String :=
  pyJoinSpace ((pyWords content).take 60) ++
    (if 60 < (pyWords content).length then "..." else "")

structure SummaryResult where
  summary : String
  category : String
deriving Repr, DecidableEq

/-- `NewsAISummarizer.summarize_and_categorize`, as a function of the
outcome of the single `agent.execute` call: on a raised exception or an
unsuccessful result, the fallback summary with category "Business";
otherwise parse the two marker lines, coerce an unknown category to
"Business", substitute the fallback summary for an empty one, and strip
both fields. -/
def summarize_and_categorize (article : NewsArticle) (outcome : ExecOutcome) :
    SummaryResult :=
  match outcome with
  | .raises _ => ⟨fallback_summary article.content, "Business"⟩
  | .ok res =>
    if !res.success then ⟨fallback_summary article.content, "Business"⟩
    else
      let summary0 := extract_field res.content "SUMMARY:"
      let category0 := extract_field res.content "CATEGORY:"
      let category1 := if CATEGORIES.contains category0 then category0 else "Business"
      let summary1 :=
        if summary0.isEmpty then fallback_summary article.content else summary0
      ⟨pyStrip summary1, pyStrip category1⟩

/-- server.py evaluates `summarizer._guess_category(title, content)`, but
`NewsAISummarizer` defines no `_guess_category` method, so in Python the
attribute lookup raises `AttributeError`.  We embed the call as that raised
exception. -/
def guessCategoryCall (_title _content : String) : Except String String :=
  .error "AttributeError: NewsAISummarizer object has no attribute _guess_category"

/-! ## The /api/news/scrape endpoint (scrape_news in server.py) -/

/-- The persisted article record (`NewsArticleModel`), restricted to the
fields the pipeline computes (`id` and timestamps are generated by the
model defaults and are not modelled). -/
structure NewsArticleModel where
  title : String
  summary : String
  category : String
  source_url : String
  source_name : String
  image_url : Option String
deriving Repr, DecidableEq

/-- The reason recorded when `scrape_article` returns `None`. -/
def noArticleMsg : String :=
  "Could not extract article content. Website may be blocking automated access."

/-- The body of the per-URL `try:` block after a successful scrape,
with Python exceptions as `Except.error`.  With AI enabled, the call
`summarize_and_categorize(article, timeout=15)` raises `TypeError` (the
method accepts no `timeout` argument); the inner `except` catches it and
takes the fallback branch.  With AI disabled the fallback branch is taken
directly.  Either fallback dict evaluates `_fallback_summary` and then
`summarizer._guess_category`, which raises `AttributeError`
(`guessCategoryCall`).  The database insert is modelled as always
succeeding (it is unreachable while `_guess_category` is missing). -/
def processUrl (useAI : Bool) (article : NewsArticle) :
    Except String NewsArticleModel := do
  let aiResult ←
    if useAI then do
      -- await summarizer.summarize_and_categorize(article, timeout=15)
      -- raises TypeError; the inner except falls back:
      let summary := fallback_summary article.content
      let category ← guessCategoryCall article.title article.content
      pure (summary, category)
    else do
      let summary := fallback_summary article.content
      let category ← guessCategoryCall article.title article.content
      pure (summary, category)
  pure { title := article.title
         summary := aiResult.1
         category := aiResult.2
         source_url := article.source_url
         source_name := article.source_name
         image_url := article.image_url }

/-- Python dict assignment `d[k] = v`: overwrite an existing binding, else
append (insertion order preserved). -/
def dictSet (d : List (String × String)) (k v : String) :
    List (String × String) :=
  if d.any (fun p => p.1 == k) then
    d.map (fun p => if p.1 == k then (k, v) else p)
  else d ++ [(k, v)]

/-- The loop state of `scrape_news`: `scraped_articles`, `failed_urls`,
`error_details`. -/
structure ScrapeState where
  articles : List NewsArticleModel
  failed_urls : List String
  error_details : List (String × String)
deriving Repr, DecidableEq

/-- One iteration of the `for url in scrape_request.urls:` loop.  A `None`
from `scrape_article` records the fixed reason; an exception raised inside
the `try:` block is caught by the outer `except` and recorded as its
message; a successfully built model is appended to the scraped articles. -/
def scrapeStep (useAI : Bool) (scrape : String → Option NewsArticle)
    (st : ScrapeState) (url : String) : ScrapeState :=
  match scrape url with
  | none =>
    { st with failed_urls := st.failed_urls ++ [url]
              error_details := dictSet st.error_details url noArticleMsg }
  | some article =>
    match processUrl useAI article with
    | .ok m => { st with articles := st.articles ++ [m] }
    | .error e =>
      { st with failed_urls := st.failed_urls ++ [url]
                error_details := dictSet st.error_details url e }

/-- The response of the endpoint. -/
structure ScrapeResponse where
  success : Bool
  scraped_count : Nat
  failed_count : Nat
  articles : List NewsArticleModel
  failed_urls : List String
  error_details : List (String × String)
  message : String
deriving Repr, DecidableEq

/-- `scrape_news` (server.py): process every URL in order, then assemble the
response with counts and the summary message.  `scrape` is the behavior of
`scraper.scrape_article` on each URL (a total function: the scraper method
catches all its own exceptions and returns an optional article). -/
def scrape_news (useAI : Bool) (scrape : String → Option NewsArticle)
    (urls : List String) : ScrapeResponse :=
  let st := urls.foldl (scrapeStep useAI scrape) ⟨[], [], []⟩
  let message :=
    "Successfully scraped " ++ toString st.articles.length ++ " article(s)." ++
      (if st.failed_urls.isEmpty then ""
       else " " ++ toString st.failed_urls.length ++ " URL(s) failed.")
  { success := true
    scraped_count := st.articles.length
    failed_count := st.failed_urls.length
    articles := st.articles
    failed_urls := st.failed_urls
    error_details := st.error_details
    message := message }

/-! ## Concrete documents and articles used as test inputs -/

/-- A well-formed scraped article: non-empty title, 150-character body. -/
def article1 : NewsArticle :=
  { title := "T"
    content := String.mk (List.replicate 150 'c')
    source_url := "http://ex.com/a"
    source_name := "Ex"
    image_url := none }

/-! ## C1 -/

set_option maxRecDepth 8192 in
/-- C1: with AI summarization disabled, a well-formed article (non-empty
title, body longer than 100 characters) does NOT reach the output with a
fallback summary and category: the fallback branch of `scrape_news`
evaluates `summarizer._guess_category`, a method `NewsAISummarizer` does not
define, so the per-URL processing raises `AttributeError`, the URL is
recorded as failed, and no article record is produced.  The claim describes
the intended behavior (the spec's fallback category), which the code fails
to implement; this theorem evaluates the code at the failing input. -/
theorem scrape_news_ai_disabled_attribute_error :
    article1.title ≠ "" ∧ 100 < article1.content.length ∧
    (scrape_news false (fun _ => some article1) ["http://ex.com/a"]).scraped_count = 0 ∧
    (scrape_news false (fun _ => some article1) ["http://ex.com/a"]).articles = [] ∧
    (scrape_news false (fun _ => some article1) ["http://ex.com/a"]).failed_urls =
      ["http://ex.com/a"] ∧
    (scrape_news false (fun _ => some article1) ["http://ex.com/a"]).error_details =
      [("http://ex.com/a",
        "AttributeError: NewsAISummarizer object has no attribute _guess_category")] := by
  decide

/-! ## C5 -/

/-- C5: for a URL answering HTTP 403 on every attempt, `scrape_article` with
`max_retries = 3` makes exactly 3 GET attempts and returns a failure value
(not an exception), sleeping 2 time units between attempts 1 and 2 and
4 time units between attempts 2 and 3, never before the first attempt. -/
theorem fetch_403_retry_budget (docs : Nat → List Node) (url : String) :
    scrape_article (fun a => FetchOutcome.status 403 (docs a)) url 3 =
      (none, [.get, .sleep 2, .get, .sleep 4, .get]) := by
  simp [scrape_article, scrapeGo]

/-! ## C6 -/

set_option maxRecDepth 8192 in
/-- C6: the fallback summary is the first 60 whitespace-delimited words
joined with single spaces, with "..." appended exactly when the body has
more than 60 words; in particular a 45-word body is returned whole with no
ellipsis and a 200-word body yields its first 60 words followed by "...". -/
theorem fallback_summary_first_60_words (content : String) :
    (fallback_summary content =
      if (pyWords content).length ≤ 60 then pyJoinSpace (pyWords content)
      else pyJoinSpace ((pyWords content).take 60) ++ "...") ∧
    fallback_summary (pyJoinSpace (List.replicate 45 "w")) =
      pyJoinSpace (List.replicate 45 "w") ∧
    fallback_summary (pyJoinSpace (List.replicate 200 "w")) =
      pyJoinSpace (List.replicate 60 "w") ++ "..." := by
  refine ⟨?_, by decide, by decide⟩
  unfold fallback_summary
  by_cases hlen : (pyWords content).length ≤ 60
  · rw [if_pos hlen, if_neg (show ¬ 60 < (pyWords content).length by omega),
      List.take_of_length_le hlen, String.append_empty]
  · rw [if_neg hlen, if_pos (show 60 < (pyWords content).length by omega)]

/-! ## C7 -/

/-- C7: whenever the external capability call returns successfully but the
parsed category is not one of Technology/Business/Sports (including the
empty value when the CATEGORY marker line is missing), the result category
is forced to "Business". -/
theorem category_coerced_to_business (article : NewsArticle) (res : AgentResult)
    (hs : res.success = true)
    (hc : CATEGORIES.contains (extract_field res.content "CATEGORY:") = false) :
    (summarize_and_categorize article (.ok res)).category = "Business" := by
  have hc2 : extract_field res.content "CATEGORY:" ∉ CATEGORIES := by
    simpa using hc
  simp [summarize_and_categorize, hs, hc2]
  decide

/-- Witness for C7 at a concrete response whose CATEGORY line holds a value
outside the fixed set. -/
theorem category_coerced_to_business_witness :
    (AgentResult.mk true "SUMMARY: s\nCATEGORY: Cooking").success = true ∧
    CATEGORIES.contains
      (extract_field (AgentResult.mk true "SUMMARY: s\nCATEGORY: Cooking").content
        "CATEGORY:") = false ∧
    (summarize_and_categorize article1
      (.ok (AgentResult.mk true "SUMMARY: s\nCATEGORY: Cooking"))).category =
      "Business" :=
  ⟨rfl, by decide,
   category_coerced_to_business article1 _ rfl (by decide)⟩

/-! ## C2 -/

/-- After `d[k] = v`, the key `k` is bound (to `v`). -/
lemma dictSet_self_mem (d : List (String × String)) (k v : String) :
    (k, v) ∈ dictSet d k v := by
  unfold dictSet
  split
  · next hany =>
    rcases List.any_eq_true.mp hany with ⟨p, hp, hpk⟩
    refine List.mem_map.mpr ⟨p, hp, ?_⟩
    simp [hpk, beq_iff_eq.mp hpk]
  · exact List.mem_append_right _ (by simp)

/-- `d[k] = v` keeps every previously bound key bound. -/
lemma dictSet_preserves_key (d : List (String × String)) (k v u r : String)
    (h : (u, r) ∈ d) : ∃ r2, (u, r2) ∈ dictSet d k v := by
  unfold dictSet
  split
  · by_cases hu : u = k
    · subst hu
      exact ⟨v, List.mem_map.mpr ⟨(u, r), h, by simp⟩⟩
    · refine ⟨r, List.mem_map.mpr ⟨(u, r), h, ?_⟩⟩
      simp [hu]
  · exact ⟨r, List.mem_append_left _ h⟩

/-- Invariant of the `scrape_news` URL loop: each URL adds exactly one entry
to either the scraped articles or the failed URLs; failed URLs come from the
input (or were already failed); every failed URL has an entry in the error
details. -/
lemma scrape_news_fold_invariant (useAI : Bool)
    (scrape : String → Option NewsArticle) :
    ∀ (urls : List String) (st : ScrapeState),
      (urls.foldl (scrapeStep useAI scrape) st).articles.length +
          (urls.foldl (scrapeStep useAI scrape) st).failed_urls.length =
        st.articles.length + st.failed_urls.length + urls.length ∧
      (∀ u, u ∈ (urls.foldl (scrapeStep useAI scrape) st).failed_urls →
        u ∈ st.failed_urls ∨ u ∈ urls) ∧
      ((∀ u, u ∈ st.failed_urls → ∃ r, (u, r) ∈ st.error_details) →
        ∀ u, u ∈ (urls.foldl (scrapeStep useAI scrape) st).failed_urls →
          ∃ r, (u, r) ∈ (urls.foldl (scrapeStep useAI scrape) st).error_details) := by
  intro urls
  induction urls with
  | nil => intro st; simp
  | cons url rest ih =>
    intro st
    have hstep :
        (scrapeStep useAI scrape st url).articles.length +
            (scrapeStep useAI scrape st url).failed_urls.length =
          st.articles.length + st.failed_urls.length + 1 ∧
        (∀ u, u ∈ (scrapeStep useAI scrape st url).failed_urls →
          u ∈ st.failed_urls ∨ u = url) ∧
        ((∀ u, u ∈ st.failed_urls → ∃ r, (u, r) ∈ st.error_details) →
          ∀ u, u ∈ (scrapeStep useAI scrape st url).failed_urls →
            ∃ r, (u, r) ∈ (scrapeStep useAI scrape st url).error_details) := by
      unfold scrapeStep
      split
      · refine ⟨by simp [Nat.add_assoc], ?_, ?_⟩
        · intro u hu
          rcases List.mem_append.mp hu with h | h
          · exact Or.inl h
          · exact Or.inr (by simpa using h)
        · intro hinv u hu
          rcases List.mem_append.mp hu with h | h
          · rcases hinv u h with ⟨r, hr⟩
            exact dictSet_preserves_key _ _ _ _ _ hr
          · have : u = url := by simpa using h
            subst this
            exact ⟨noArticleMsg, dictSet_self_mem _ _ _⟩
      · split
        · refine ⟨by simp [Nat.add_right_comm], ?_, ?_⟩
          · intro u hu; exact Or.inl hu
          · intro hinv u hu; exact hinv u hu
        · next e heq =>
          refine ⟨by simp [Nat.add_assoc], ?_, ?_⟩
          · intro u hu
            rcases List.mem_append.mp hu with h | h
            · exact Or.inl h
            · exact Or.inr (by simpa using h)
          · intro hinv u hu
            rcases List.mem_append.mp hu with h | h
            · rcases hinv u h with ⟨r, hr⟩
              exact dictSet_preserves_key _ _ _ _ _ hr
            · have : u = url := by simpa using h
              subst this
              exact ⟨e, dictSet_self_mem _ _ _⟩
    rcases ih (scrapeStep useAI scrape st url) with ⟨ih1, ih2, ih3⟩
    refine ⟨?_, ?_, ?_⟩
    · simp only [List.foldl_cons, List.length_cons]
      have h1 := ih1
      have h2 := hstep.1
      omega
    · intro u hu
      simp only [List.foldl_cons] at hu
      rcases ih2 u hu with h | h
      · rcases hstep.2.1 u h with h2 | h2
        · exact Or.inl h2
        · exact Or.inr (by simp [h2])
      · exact Or.inr (List.mem_cons_of_mem _ h)
    · intro hinv u hu
      simp only [List.foldl_cons] at hu ⊢
      exact ih3 (hstep.2.2 hinv) u hu

/-- C2: `scrape_news` is a total function of its inputs (in this embedding
every per-URL exception is absorbed into the loop state, never propagated):
for every URL list and every per-URL scrape behavior, the response reports
the success and failure counts, every URL contributes to exactly one of the
two lists (so one failure never aborts the remaining URLs), every failed
URL comes from the input, and every failed URL has a human-readable reason
recorded in the error details. -/
theorem scrape_news_catches_per_url_failures (useAI : Bool)
    (scrape : String → Option NewsArticle) (urls : List String) :
    (scrape_news useAI scrape urls).success = true ∧
    (scrape_news useAI scrape urls).scraped_count =
      (scrape_news useAI scrape urls).articles.length ∧
    (scrape_news useAI scrape urls).failed_count =
      (scrape_news useAI scrape urls).failed_urls.length ∧
    (scrape_news useAI scrape urls).articles.length +
        (scrape_news useAI scrape urls).failed_urls.length = urls.length ∧
    (∀ u, u ∈ (scrape_news useAI scrape urls).failed_urls → u ∈ urls) ∧
    (∀ u, u ∈ (scrape_news useAI scrape urls).failed_urls →
      ∃ reason, (u, reason) ∈ (scrape_news useAI scrape urls).error_details) := by
  rcases scrape_news_fold_invariant useAI scrape urls ⟨[], [], []⟩ with ⟨h1, h2, h3⟩
  refine ⟨rfl, rfl, rfl, ?_, ?_, ?_⟩
  · simpa using h1
  · intro u hu
    rcases h2 u hu with h | h
    · simp at h
    · exact h
  · intro u hu
    exact h3 (by simp) u hu

/-- Witness for C2: two failing URLs are both reported, with reasons, and
the counts add up. -/
theorem scrape_news_catches_per_url_failures_witness :
    (scrape_news false (fun _ => none) ["a", "b"]).articles.length +
        (scrape_news false (fun _ => none) ["a", "b"]).failed_urls.length = 2 ∧
    "a" ∈ (scrape_news false (fun _ => none) ["a", "b"]).failed_urls ∧
    (∃ reason,
      ("a", reason) ∈ (scrape_news false (fun _ => none) ["a", "b"]).error_details) :=
  ⟨(scrape_news_catches_per_url_failures false (fun _ => none) ["a", "b"]).2.2.2.1,
   by decide,
   (scrape_news_catches_per_url_failures false (fun _ => none) ["a", "b"]).2.2.2.2.2
     "a" (by decide)⟩

/-! ## C3 -/

/-- An HTML page that fetches fine (the title extracts as "Hi") but has no
paragraph text at all, so body extraction fails on it. -/
def extractionFailDoc : List Node :=
  [.elem "title" [] [.text "Hi"]]

/-- C3 counterexample: on HTML whose body extraction fails, `scrape_article`
does NOT stop after one fetch: with `max_retries = 3` it performs 3 GET
attempts (with backoff sleeps in between), refuting the claim that no
further fetch attempt is made for that URL. -/
theorem extraction_failure_retried_cex :
    falsyOpt (extract_content extractionFailDoc) = true ∧
    (scrape_article (fun _ => FetchOutcome.status 200 extractionFailDoc)
        "http://x" 3).2.count Ev.get = 3 ∧
    (3 : Nat) ≠ 1 := by
  decide

/-- One failing attempt of the retry loop, when the fetch returns HTTP 200
but title or body extraction fails on the document: the loop behaves exactly
as for any other failed attempt (return `None` on the last attempt,
otherwise retry). -/
lemma scrapeGo_status_extract_fail (world : Nat → FetchOutcome) (url : String)
    (maxR attempt rem : Nat) (doc : List Node)
    (hw : world attempt = .status 200 doc)
    (hf : (falsyOpt (extract_title doc) || falsyOpt (extract_content doc)) = true) :
    scrapeGo world url maxR attempt (rem + 1) =
      if attempt = maxR - 1 then
        (none, (if 0 < attempt then [Ev.sleep (2 ^ attempt)] else []) ++ [Ev.get])
      else
        ((scrapeGo world url maxR (attempt + 1) rem).1,
         ((if 0 < attempt then [Ev.sleep (2 ^ attempt)] else []) ++ [Ev.get]) ++
           (scrapeGo world url maxR (attempt + 1) rem).2) := by
  cases hft : falsyOpt (extract_title doc) with
  | true => simp [scrapeGo, hw, hft]
  | false =>
    have hfc : falsyOpt (extract_content doc) = true := by
      simpa [hft] using hf
    simp [scrapeGo, hw, hft, hfc]

/-- C3 amended: when title or body extraction fails on successfully fetched
HTML, the failure is treated like any other attempt failure — the URL IS
fetched again, with backoff, until the retry budget is exhausted, and only
then does `scrape_article` surface the per-URL failure (`None`): with
`max_retries = 3` and every attempt yielding HTTP 200 with unextractable
HTML, the trace is 3 GETs with sleeps of 2 and 4 between them. -/
theorem extraction_failure_retried_amended (docs : Nat → List Node)
    (url : String)
    (h : ∀ a, (falsyOpt (extract_title (docs a)) ||
      falsyOpt (extract_content (docs a))) = true) :
    scrape_article (fun a => FetchOutcome.status 200 (docs a)) url 3 =
      (none, [.get, .sleep 2, .get, .sleep 4, .get]) := by
  have e0 := scrapeGo_status_extract_fail
    (fun a => FetchOutcome.status 200 (docs a)) url 3 0 2 (docs 0) rfl (h 0)
  have e1 := scrapeGo_status_extract_fail
    (fun a => FetchOutcome.status 200 (docs a)) url 3 1 1 (docs 1) rfl (h 1)
  have e2 := scrapeGo_status_extract_fail
    (fun a => FetchOutcome.status 200 (docs a)) url 3 2 0 (docs 2) rfl (h 2)
  norm_num at e0 e1 e2
  simp only [scrape_article]
  rw [show (3 : Nat) = 2 + 1 from rfl, scrapeGo_status_extract_fail
    (fun a => FetchOutcome.status 200 (docs a)) url 3 0 2 (docs 0) rfl (h 0)]
  norm_num
  rw [e1]
  norm_num
  rw [e2]
  norm_num

/-- Witness for C3 amended, at the concrete unextractable page. -/
theorem extraction_failure_retried_amended_witness :
    (∀ _attempt : Nat, (falsyOpt (extract_title extractionFailDoc) ||
      falsyOpt (extract_content extractionFailDoc)) = true) ∧
    scrape_article (fun _ => FetchOutcome.status 200 extractionFailDoc)
        "http://x" 3 =
      (none, [.get, .sleep 2, .get, .sleep 4, .get]) :=
  have hd : (falsyOpt (extract_title extractionFailDoc) ||
      falsyOpt (extract_content extractionFailDoc)) = true := by decide
  ⟨fun _ => hd,
   extraction_failure_retried_amended (fun _ => extractionFailDoc) "http://x"
     (fun _ => hd)⟩

/-! ## C4 -/

mutual

/-- If no element of a node satisfies `p`, then none satisfies any predicate
implying `p`. -/
lemma findFirstN_none_mono (p q : String → List (String × String) → Bool)
    (hpq : ∀ t a, q t a = true → p t a = true) :
    (n : Node) → findFirstN p n = none → findFirstN q n = none
  | .text _, _ => rfl
  | .elem t a c, h => by
    unfold findFirstN at h ⊢
    by_cases hp : p t a
    · simp [hp] at h
    · have hq : q t a = false := by
        cases hq2 : q t a
        · rfl
        · exact absurd (hpq t a hq2) (by simpa using hp)
      simp only [hp, Bool.false_eq_true, if_false] at h
      simp only [hq, Bool.false_eq_true, if_false]
      exact findFirstL_none_mono p q hpq c h

/-- If no element of a forest satisfies `p`, then none satisfies any
predicate implying `p`. -/
lemma findFirstL_none_mono (p q : String → List (String × String) → Bool)
    (hpq : ∀ t a, q t a = true → p t a = true) :
    (l : List Node) → findFirstL p l = none → findFirstL q l = none
  | [], _ => rfl
  | n :: rest, h => by
    unfold findFirstL at h ⊢
    cases hn : findFirstN p n with
    | some r => simp [hn] at h
    | none =>
      simp only [hn] at h
      rw [findFirstN_none_mono p q hpq n hn]
      exact findFirstL_none_mono p q hpq rest h

end

/-- The title-extraction order as claim C4 states it: the Open-Graph title
meta field first (its content attribute), then the heading selectors, then
the document `<title>` element; first candidate yielding non-empty text
wins. -/
def titleClaimOrder (doc : List Node) : Option String :=
  let cands : List (Option String) :=
    [(findFirstL (matchesSel (.attrEq "property" "og:title")) doc).bind
       (fun tg => attrOf tg.2.1 "content"),
     (findFirstL (matchesSel (.tag "h1")) doc).map (fun tg => getTextL tg.2.2),
     (findFirstL (matchesSel (.tagClass "h1" "article-title")) doc).map
       (fun tg => getTextL tg.2.2),
     (findFirstL (matchesSel (.tagClass "h1" "entry-title")) doc).map
       (fun tg => getTextL tg.2.2)]
  match cands.filterMap (fun o => o.bind
      (fun v => if (pyStrip v).isEmpty then none else some (pyStrip v))) with
  | v :: _ => some v
  | [] =>
    match findFirstL (fun t _ => t == "title") doc with
    | some (_, _, c) => some (pyStrip (getTextL c))
    | none => none

/-- A page with an empty `<h1>`, an Open-Graph title and a `<title>`. -/
def titleOrderDoc : List Node :=
  [.elem "h1" [] [],
   .elem "meta" [("property", "og:title"), ("content", "OG Title")] [],
   .elem "title" [] [.text "Doc Title"]]

/-- C4 counterexample: on a page with an empty `<h1>` and an Open-Graph
title, the code returns the empty text of the `<h1>` (the first *existing*
candidate element, tried before the og:title meta field), not the og:title
content the claimed order would give. -/
theorem title_extraction_order_cex :
    titleClaimOrder titleOrderDoc = some "OG Title" ∧
    extract_title titleOrderDoc = some "" ∧
    extract_title titleOrderDoc ≠ titleClaimOrder titleOrderDoc := by
  decide

/-- C4 amended: title extraction tries, in order, a bare `h1`, `h1` with
class article-title, `h1` with class entry-title, and only then the
Open-Graph og:title meta field; the first candidate whose element EXISTS
wins (its content attribute if present, else its text, stripped — even when
that text is empty).  In particular, when no `h1` exists but an og:title
element does, that element is the winner — og:title is consulted before the
`<title>` fallback; only when none of the four selectors matches any
element is the document `<title>` text returned, trimmed of surrounding
whitespace (absent a `<title>`, extraction returns nothing). -/
theorem title_extraction_order_amended (doc : List Node) :
    (∀ t a c, findFirstL (matchesSel (.tag "h1")) doc = some (t, a, c) →
      extract_title doc = some
        (match attrOf a "content" with
         | some v => pyStrip v
         | none => pyStrip (getTextL c))) ∧
    (findFirstL (matchesSel (.tag "h1")) doc = none →
     ∀ t a c,
       findFirstL (matchesSel (.attrEq "property" "og:title")) doc =
         some (t, a, c) →
       extract_title doc = some
         (match attrOf a "content" with
          | some v => pyStrip v
          | none => pyStrip (getTextL c))) ∧
    (findFirstL (matchesSel (.tag "h1")) doc = none →
     findFirstL (matchesSel (.attrEq "property" "og:title")) doc = none →
     extract_title doc =
       (match findFirstL (fun t _ => t == "title") doc with
        | some (_, _, c) => some (pyStrip (getTextL c))
        | none => none)) := by
  refine ⟨?_, ?_, ?_⟩
  · intro t a c h
    simp [extract_title, findFirstSels, titleSelectors, h]
  · intro h1 t a c hog
    have hc1 : findFirstL (matchesSel (.tagClass "h1" "article-title")) doc = none := by
      refine findFirstL_none_mono _ _ ?_ doc h1
      intro t a hq
      simp only [matchesSel, Bool.and_eq_true] at hq ⊢
      exact hq.1
    have hc2 : findFirstL (matchesSel (.tagClass "h1" "entry-title")) doc = none := by
      refine findFirstL_none_mono _ _ ?_ doc h1
      intro t a hq
      simp only [matchesSel, Bool.and_eq_true] at hq ⊢
      exact hq.1
    simp [extract_title, findFirstSels, titleSelectors, h1, hc1, hc2, hog]
  · intro h1 hog
    have hc1 : findFirstL (matchesSel (.tagClass "h1" "article-title")) doc = none := by
      refine findFirstL_none_mono _ _ ?_ doc h1
      intro t a hq
      simp only [matchesSel, Bool.and_eq_true] at hq ⊢
      exact hq.1
    have hc2 : findFirstL (matchesSel (.tagClass "h1" "entry-title")) doc = none := by
      refine findFirstL_none_mono _ _ ?_ doc h1
      intro t a hq
      simp only [matchesSel, Bool.and_eq_true] at hq ⊢
      exact hq.1
    simp [extract_title, findFirstSels, titleSelectors, h1, hc1, hc2, hog]

/-- Witness for C4 amended: a bare `<h1>` wins even with an og:title
present; with no `h1` the og:title content attribute wins over an existing
`<title>`; and with no h1/og:title markers the `<title>` text is trimmed. -/
theorem title_extraction_order_amended_witness :
    (findFirstL (matchesSel (.tag "h1"))
        [Node.elem "h1" [] [.text " Head "],
         Node.elem "meta" [("property", "og:title"), ("content", "OG")] []] =
      some ("h1", [], [.text " Head "]) ∧
     extract_title
        [Node.elem "h1" [] [.text " Head "],
         Node.elem "meta" [("property", "og:title"), ("content", "OG")] []] =
      some "Head") ∧
    (extract_title
        [Node.elem "meta" [("property", "og:title"), ("content", "OG Title")] [],
         Node.elem "title" [] [.text "Page Title"]] =
      some "OG Title") ∧
    (extract_title [Node.elem "title" [] [.text "  Doc  "]] = some "Doc") :=
  ⟨⟨rfl,
    (title_extraction_order_amended _).1 "h1" [] [.text " Head "] rfl⟩,
   (title_extraction_order_amended
      [Node.elem "meta" [("property", "og:title"), ("content", "OG Title")] [],
       Node.elem "title" [] [.text "Page Title"]]).2.1
     rfl "meta" [("property", "og:title"), ("content", "OG Title")] [] rfl,
   (title_extraction_order_amended [Node.elem "title" [] [.text "  Doc  "]]).2.2
     rfl rfl⟩

/-! ## C8 -/

lemma space_one_length : (" " : String).length = 1 := rfl

/-- Joining one more string never shortens a space-join. -/
lemma pyJoinSpace_cons_le (a : String) (l : List String) :
    (pyJoinSpace l).length ≤ (pyJoinSpace (a :: l)).length := by
  cases l with
  | nil => simp [pyJoinSpace]
  | cons y t =>
    simp only [pyJoinSpace, String.length_append]
    omega

/-- A space-join of a sublist is no longer than the space-join of the whole
list. -/
lemma pyJoinSpace_length_mono : ∀ {l1 l2 : List String}, l1.Sublist l2 →
    (pyJoinSpace l1).length ≤ (pyJoinSpace l2).length := by
  intro l1 l2 h
  induction h with
  | slnil => exact Nat.le_refl _
  | cons a h ih => exact Nat.le_trans ih (pyJoinSpace_cons_le _ _)
  | cons₂ a h ih =>
    next t1 t2 =>
    cases t1 with
    | nil =>
      cases t2 with
      | nil => exact Nat.le_refl _
      | cons y t =>
        simp only [pyJoinSpace, String.length_append, space_one_length]
        omega
    | cons x s1 =>
      cases t2 with
      | nil => exact absurd (List.sublist_nil.mp h) (by simp)
      | cons y s2 =>
        simp only [pyJoinSpace, String.length_append, space_one_length]
        omega

mutual

/-- The paragraph elements (in fact, elements matching any `p`) under an
element found inside a node form a sublist of those of the node itself. -/
lemma findFirstN_children_sublist
    (p q : String → List (String × String) → Bool) :
    (n : Node) → ∀ t a c, findFirstN q n = some (t, a, c) →
      (findAllL p c).Sublist (findAllN p n)
  | .text _, t, a, c, h => by simp [findFirstN] at h
  | .elem tg ats ch, t, a, c, h => by
    unfold findFirstN at h
    by_cases hq : q tg ats
    · simp only [hq, if_true, Option.some.injEq, Prod.mk.injEq] at h
      obtain ⟨rfl, rfl, rfl⟩ := h
      show (findAllL p ch).Sublist
        ((if p tg ats then [(tg, ats, ch)] else []) ++ findAllL p ch)
      exact List.sublist_append_right _ _
    · simp only [hq, Bool.false_eq_true, if_false] at h
      have hrec := findFirstL_children_sublist p q ch t a c h
      show (findAllL p c).Sublist
        ((if p tg ats then [(tg, ats, ch)] else []) ++ findAllL p ch)
      exact hrec.trans (List.sublist_append_right _ _)

/-- The paragraph elements under an element found inside a forest form a
sublist of those of the forest. -/
lemma findFirstL_children_sublist
    (p q : String → List (String × String) → Bool) :
    (l : List Node) → ∀ t a c, findFirstL q l = some (t, a, c) →
      (findAllL p c).Sublist (findAllL p l)
  | [], t, a, c, h => by simp [findFirstL] at h
  | n :: rest, t, a, c, h => by
    unfold findFirstL at h
    cases hn : findFirstN q n with
    | some r =>
      simp only [hn, Option.some.injEq] at h
      subst h
      have hrec := findFirstN_children_sublist p q n t a c hn
      show (findAllL p c).Sublist (findAllN p n ++ findAllL p rest)
      exact hrec.trans (List.sublist_append_left _ _)
    | none =>
      simp only [hn] at h
      have hrec := findFirstL_children_sublist p q rest t a c h
      show (findAllL p c).Sublist (findAllN p n ++ findAllL p rest)
      exact hrec.trans (List.sublist_append_right _ _)

end

/-- No container selector can accept when even the document-wide paragraph
join is at or below the threshold: each container's paragraphs are a subset
of the document's, so its join is no longer. -/
lemma contentFromSels_below_threshold (doc : List Node)
    (hall : (joinParagraphs (findAllL isP doc)).length ≤ 100) :
    ∀ sels, contentFromSels sels doc = none := by
  intro sels
  induction sels with
  | nil => rfl
  | cons s rest ih =>
    unfold contentFromSels
    cases hf : findFirstL (matchesSel s) doc with
    | none => simpa using ih
    | some tg =>
      obtain ⟨t, a, c⟩ := tg
      have hsub := findFirstL_children_sublist isP (matchesSel s) doc t a c hf
      have hlen : (joinParagraphs (findAllL isP c)).length ≤
          (joinParagraphs (findAllL isP doc)).length :=
        pyJoinSpace_length_mono (hsub.map _)
      by_cases he : (findAllL isP c).isEmpty
      · simp [he, ih]
      · have hnot : ¬ 100 < (joinParagraphs (findAllL isP c)).length := by omega
        simp [he, hnot, ih]

/-- Anything the container loop accepts is longer than 100 characters. -/
lemma contentFromSels_some_length (doc : List Node) :
    ∀ sels s, contentFromSels sels doc = some s → 100 < s.length := by
  intro sels
  induction sels with
  | nil => intro s h; simp [contentFromSels] at h
  | cons sel rest ih =>
    intro s h
    unfold contentFromSels at h
    cases hf : findFirstL (matchesSel sel) doc with
    | none =>
      rw [hf] at h
      exact ih s h
    | some tg =>
      obtain ⟨t, a, c⟩ := tg
      rw [hf] at h
      by_cases he : (findAllL isP c).isEmpty
      · simp only [he, if_true] at h
        exact ih s h
      · simp only [he, Bool.false_eq_true, if_false] at h
        by_cases hl : 100 < (joinParagraphs (findAllL isP c)).length
        · simp only [hl, if_true, Option.some.injEq] at h
          subst h
          exact hl
        · simp only [hl, if_false] at h
          exact ih s h

/-- C8 amended: body extraction accepts a candidate only when its collected
paragraph text, joined with single spaces, is strictly longer than 100
characters; consequently, for every document whose paragraph text joined
with single spaces is at most 100 characters long, body extraction fails,
regardless of container structure. -/
theorem extract_content_threshold (doc : List Node) :
    ((joinParagraphs (findAllL isP doc)).length ≤ 100 →
      extract_content doc = none) ∧
    (∀ s, extract_content doc = some s → 100 < s.length) := by
  constructor
  · intro hall
    unfold extract_content
    rw [contentFromSels_below_threshold doc hall contentSelectors]
    by_cases he : (findAllL isP doc).isEmpty
    · simp [he]
    · have hnot : ¬ 100 < (joinParagraphs (findAllL isP doc)).length := by omega
      simp [he, hnot]
  · intro s h
    unfold extract_content at h
    cases hc : contentFromSels contentSelectors doc with
    | some v =>
      rw [hc] at h
      simp only [Option.some.injEq] at h
      subst h
      exact contentFromSels_some_length doc contentSelectors v hc
    | none =>
      rw [hc] at h
      by_cases he : (findAllL isP doc).isEmpty
      · simp [he] at h
      · simp only [he, Bool.false_eq_true, if_false] at h
        by_cases hl : 100 < (joinParagraphs (findAllL isP doc)).length
        · simp only [hl, if_true, Option.some.injEq] at h
          subst h
          exact hl
        · simp [hl] at h

/-- Witness for C8 amended at a page with a single short paragraph. -/
theorem extract_content_threshold_witness :
    (joinParagraphs (findAllL isP [Node.elem "p" [] [.text "hi"]])).length ≤ 100 ∧
    extract_content [Node.elem "p" [] [.text "hi"]] = none :=
  ⟨by decide,
   (extract_content_threshold [Node.elem "p" [] [.text "hi"]]).1 (by decide)⟩

/-- The total length of the stripped paragraph-level texts of a document —
the measure named by claim C8's antecedent. -/
def paragraphTextTotal (doc : List Node) : Nat :=
  ((findAllL isP doc).map (fun tg => (pyStrip (getTextL tg.2.2)).length)).sum

/-- An article whose two paragraphs hold 50 characters each. -/
def twoParagraphDoc : List Node :=
  [.elem "article" []
    [.elem "p" [] [.text (String.mk (List.replicate 50 'a'))],
     .elem "p" [] [.text (String.mk (List.replicate 50 'b'))]]]

/-- C8 counterexample: a document whose paragraph-level text totals exactly
100 characters (at most 100), yet body extraction SUCCEEDS: the two
50-character paragraphs joined with a single space give 101 characters,
which passes the `> 100` check. -/
theorem body_extraction_total_cex :
    paragraphTextTotal twoParagraphDoc = 100 ∧
    paragraphTextTotal twoParagraphDoc ≤ 100 ∧
    extract_content twoParagraphDoc ≠ none := by
  decide

/-! ## C9 and C10: URL parsing lemmas -/

/-- Lowercase letters are letters. -/
lemma isLower_isAlpha {c : Char} (h : c.isLower = true) : c.isAlpha = true := by
  simp [Char.isAlpha, h]

/-- Lowercase letters are scheme characters. -/
lemma isLower_isSchemeChar {c : Char} (h : c.isLower = true) :
    isSchemeChar c = true := by
  simp [isSchemeChar, Char.isAlphanum, isLower_isAlpha h]

/-- Lowercase letters are not colons. -/
lemma isLower_ne_colon {c : Char} (h : c.isLower = true) : c ≠ ':' := by
  intro e
  subst e
  exact absurd h (by decide)

/-- `Char.toLower` fixes lowercase letters. -/
lemma toLower_of_isLower {c : Char} (h : c.isLower = true) : c.toLower = c := by
  simp [Char.isLower] at h
  have h97 : 97 ≤ c.val.toNat := h.1
  unfold Char.toLower
  have hout : ¬ (c.toNat ≥ 65 ∧ c.toNat ≤ 90) := by
    simp [Char.toNat]
    omega
  simp [hout]

/-- Splitting at the first separator occurrence, when the prefix is
separator-free. -/
lemma splitOnceL_append (sep : Char) (l1 l2 : List Char) (h : sep ∉ l1) :
    splitOnceL sep (l1 ++ sep :: l2) = some (l1, l2) := by
  induction l1 with
  | nil => simp [splitOnceL]
  | cons c cs ih =>
    have hc : ¬ c = sep := fun e => h (e ▸ List.mem_cons_self c cs)
    have hcs : sep ∉ cs := fun m => h (List.mem_cons_of_mem _ m)
    simp [splitOnceL, hc, ih hcs]

/-- `takeWhile` over an all-satisfying prefix followed by a failing (or
empty) suffix returns exactly the prefix. -/
lemma takeWhile_append_exact (p : Char → Bool) (l1 l2 : List Char)
    (h1 : ∀ c ∈ l1, p c = true)
    (h2 : l2 = [] ∨ ∃ c cs, l2 = c :: cs ∧ p c = false) :
    (l1 ++ l2).takeWhile p = l1 := by
  induction l1 with
  | nil =>
    rcases h2 with rfl | ⟨c, cs, rfl, hc⟩
    · rfl
    · simp [List.takeWhile_cons, hc]
  | cons c cs ih =>
    have hc := h1 c (List.mem_cons_self c cs)
    have hcs : ∀ x ∈ cs, p x = true := fun x m => h1 x (List.mem_cons_of_mem _ m)
    simp [List.takeWhile_cons, hc, ih hcs]

/-- `urlparse` on a well-formed absolute URL `scheme://host{basePath}`
(lowercase-letter scheme, delimiter-free host, path empty or starting with
a slash) recovers exactly the scheme and the host as its netloc. -/
lemma urlparse_wellformed (scheme host basePath : String)
    (hne : scheme.data ≠ [])
    (hsch : ∀ c ∈ scheme.data, c.isLower = true)
    (hhost : ∀ c ∈ host.data, c ≠ '/' ∧ c ≠ '?' ∧ c ≠ '#')
    (hbp : basePath.data = [] ∨ ∃ cs, basePath.data = '/' :: cs) :
    urlparseSchemeNetloc (scheme ++ "://" ++ host ++ basePath) =
      (scheme, host) := by
  have hdata : (scheme ++ "://" ++ host ++ basePath).data =
      scheme.data ++ ':' :: ('/' :: '/' :: (host.data ++ basePath.data)) := by
    simp [String.data_append]
  have hcolon : ':' ∉ scheme.data := by
    intro m
    exact isLower_ne_colon (hsch ':' m) rfl
  have hvalid : validScheme scheme.data = true := by
    cases hd : scheme.data with
    | nil => exact absurd hd hne
    | cons c cs =>
      have hmem : ∀ x ∈ scheme.data, x.isLower = true := hsch
      rw [hd] at hmem
      unfold validScheme
      rw [Bool.and_eq_true]
      constructor
      · exact isLower_isAlpha (hmem c (List.mem_cons_self c cs))
      · rw [List.all_eq_true]
        intro x m
        exact isLower_isSchemeChar (hmem x m)
  have hmap : scheme.data.map Char.toLower = scheme.data := by
    conv_rhs => rw [← List.map_id scheme.data]
    exact List.map_congr_left (fun c m => toLower_of_isLower (hsch c m))
  have htake : (host.data ++ basePath.data).takeWhile
      (fun c => !(c = '/' || c = '?' || c = '#')) = host.data := by
    refine takeWhile_append_exact _ _ _ ?_ ?_
    · intro c m
      rcases hhost c m with ⟨h1, h2, h3⟩
      simp [h1, h2, h3]
    · rcases hbp with hb | ⟨cs, hb⟩
      · exact Or.inl hb
      · exact Or.inr ⟨'/', cs, hb, by decide⟩
  unfold urlparseSchemeNetloc
  simp only [hdata, splitOnceL_append ':' scheme.data _ hcolon, hvalid,
    if_true, hmap, htake]

/-- C9: image-URL resolution passes any URL beginning with "http" through
unchanged, and for every host-relative path (starting with "/") under a
well-formed base URL it returns `scheme ++ "://" ++ host ++ path` with the
path exactly as given — no normalization of ".." segments or query
strings. -/
theorem make_absolute_url_resolution :
    (∀ url base_url : String, pyStartsWith url "http" = true →
      make_absolute_url url base_url = url) ∧
    (∀ scheme host basePath path : String,
      scheme.data ≠ [] →
      (∀ c ∈ scheme.data, c.isLower = true) →
      (∀ c ∈ host.data, c ≠ '/' ∧ c ≠ '?' ∧ c ≠ '#') →
      (basePath.data = [] ∨ ∃ cs, basePath.data = '/' :: cs) →
      (∃ cs, path.data = '/' :: cs) →
      make_absolute_url path (scheme ++ "://" ++ host ++ basePath) =
        scheme ++ "://" ++ host ++ path) := by
  constructor
  · intro url base_url h
    simp [make_absolute_url, h]
  · intro scheme host basePath path hne hsch hhost hbp hpath
    have hnh : pyStartsWith path "http" = false := by
      rcases hpath with ⟨cs, hp⟩
      simp [pyStartsWith, hp, startsWithL]
    simp only [make_absolute_url, hnh, Bool.false_eq_true, if_false,
      urlparse_wellformed scheme host basePath hne hsch hhost hbp]

/-- Witness for C9: an absolute URL passes through; a host-relative path is
glued onto the base URL scheme and host, query string of the base dropped,
".." left untouched. -/
theorem make_absolute_url_resolution_witness :
    pyStartsWith "http://cdn.x.io/i.png" "http" = true ∧
    make_absolute_url "http://cdn.x.io/i.png" "https://example.com/p" =
      "http://cdn.x.io/i.png" ∧
    make_absolute_url "/img/../a.png" "https://example.com/page?q=1" =
      "https://example.com/img/../a.png" :=
  ⟨by decide,
   make_absolute_url_resolution.1 "http://cdn.x.io/i.png"
     "https://example.com/p" (by decide),
   by
    have h := make_absolute_url_resolution.2 "https" "example.com" "/page?q=1"
      "/img/../a.png" (by decide) (by decide) (by decide)
      (Or.inr ⟨"page?q=1".data, rfl⟩) ⟨"img/../a.png".data, rfl⟩
    exact h.trans (by decide)⟩

/-! ## C10 -/

/-- Source-name derivation as claim C10 states it: strip only a LEADING
"www." label from the domain, then capitalize the first remaining
dot-separated label. -/
def sourceNameClaim (url : String) : String :=
  let netloc := (urlparseSchemeNetloc url).2
  let domain :=
    if pyStartsWith netloc "www." then netloc.data.drop 4 else netloc.data
  pyCapitalize (String.mk ((splitSepL '.' domain).headD []))

/-- C10 counterexample: for the domain `awww.site.com` (no leading "www."
label), the code removes the embedded substring "www." and answers "Asite",
while the claimed leading-label stripping would answer "Awww". -/
theorem source_name_cex :
    get_source_name "https://awww.site.com/a" = "Asite" ∧
    sourceNameClaim "https://awww.site.com/a" = "Awww" ∧
    get_source_name "https://awww.site.com/a" ≠
      sourceNameClaim "https://awww.site.com/a" := by
  decide

/-- C10 amended: the source name is derived deterministically from the
URL's domain by removing EVERY occurrence of the substring "www." (not just
a leading label), then taking the first dot-separated label of the result
and capitalizing it. -/
theorem get_source_name_amended (scheme host basePath : String)
    (hne : scheme.data ≠ [])
    (hsch : ∀ c ∈ scheme.data, c.isLower = true)
    (hhost : ∀ c ∈ host.data, c ≠ '/' ∧ c ≠ '?' ∧ c ≠ '#')
    (hbp : basePath.data = [] ∨ ∃ cs, basePath.data = '/' :: cs) :
    get_source_name (scheme ++ "://" ++ host ++ basePath) =
      pyCapitalize (String.mk
        ((splitSepL '.' (replaceL host.data ("www.".data) [])).headD [])) := by
  unfold get_source_name
  rw [urlparse_wellformed scheme host basePath hne hsch hhost hbp]

/-- Witness for C10 amended: `https://www.bbc.com/news` yields "Bbc". -/
theorem get_source_name_amended_witness :
    ("https" : String).data ≠ [] ∧
    get_source_name "https://www.bbc.com/news" = "Bbc" :=
  ⟨by decide,
   by
    have h := get_source_name_amended "https" "www.bbc.com" "/news"
      (by decide) (by decide) (by decide) (Or.inr ⟨"news".data, rfl⟩)
    exact h.trans (by decide)⟩

end NewsBytes
